import Mathlib

/-!
Verification of the Pac-Man GitHub contribution calendar generator
(`.github/scripts/generate_pacman.py`).

The script is a single-pass pipeline: fetch contribution records (or fall
back to mock data), bucket them into a 7 x (at most 53) calendar grid,
compute a horizontal serpentine traversal of the grid cells, and emit an
SVG document.

Shallow embedding conventions used throughout this file:

* A calendar date is embedded as a natural number counting days from a
  fixed epoch whose day 0 is a Monday.  Python's `datetime.weekday()`
  (Monday = 0 .. Sunday = 6) is then `date % 7`, and the script's
  Sunday-indexed day of week `(weekday + 1) % 7` becomes
  `(date % 7 + 1) % 7`.  Sorting the ISO `YYYY-MM-DD` strings used by the
  script orders them chronologically, so sorting by this day number is
  the same order.
* A Python dict holding a contribution record is embedded as the
  structure `Contrib`.  The three fields the record is created with are
  `date`, `count` and `level`; the three extra keys that
  `build_calendar_grid` writes into the dict (`day_of_week`, `x`, `y`)
  are embedded as `Option` fields that are `none` while the key is
  absent.
* Python's stable `sorted` / `list.sort` are embedded as
  `List.insertionSort`, which is also stable; on the distinct keys these
  sorts are applied to in the script the two agree element by element.
* The floating point arithmetic on animation delays (`idx * 0.25`) and
  dot radii (`2 + level * 0.5`) is exact at these values (all quantities
  are small multiples of powers of two), so it is embedded as exact
  rational arithmetic.
* The impure parts (HTTP transport, `response.json()`,
  `generate_mock_data`'s randomness and wall clock) are passed in as
  explicit arguments; an exception escaping a Python call is embedded as
  `Except.error`.
-/

/-- One day of contribution data: the dict
`{'date': ..., 'count': ..., 'level': ...}` built by
`fetch_contributions_graphql` / `generate_mock_data`, together with the
three optional keys that `build_calendar_grid` later writes into the
same dict (`none` = key absent). -/
structure Contrib where
  date : Nat
  count : Nat
  level : Nat
  day_of_week : Option Nat := none
  x : Option Int := none
  y : Option Int := none
deriving DecidableEq, Repr

/-- The dict `{'contributions': [...], 'years': [...]}` returned by the
data-source functions and consumed by `generate_svg`. -/
structure ContributionsData where
  contributions : List Contrib
  years : List Int
deriving DecidableEq, Repr

-- Configuration constants of the script.
def CELL_SIZE : Nat := 10
def CELL_GAP : Nat := 3
def CELL_RADIUS : Nat := 2
def WEEKS_TO_SHOW : Nat := 53
def DAYS_IN_WEEK : Nat := 7
def MARGIN_TOP : Nat := 55
def MARGIN_LEFT : Nat := 35
def MARGIN_RIGHT : Nat := 20
def MARGIN_BOTTOM : Nat := 25

/-- `ANIMATION_DURATION_PER_CELL = 0.25` seconds, embedded exactly. -/
def ANIMATION_DURATION_PER_CELL : ℚ := 1/4

/-- The `level_map` dict inside `contribution_level_to_int`. -/
def level_map : List (String × Nat) :=
  [("NONE", 0), ("FIRST_QUARTILE", 1), ("SECOND_QUARTILE", 2),
   ("THIRD_QUARTILE", 3), ("FOURTH_QUARTILE", 4)]

/-- `contribution_level_to_int`: `level_map.get(level_str, 0)`. -/
def contribution_level_to_int (level_str : String) : Nat :=
  ((level_map.find? (fun p => p.1 == level_str)).map (fun p => p.2)).getD 0

/-- The `LEVEL_COLORS` dict. -/
def LEVEL_COLORS : List (Nat × String) :=
  [(0, "#161b22"), (1, "#0e4429"), (2, "#006d32"), (3, "#26a641"), (4, "#39d353")]

/-- `LEVEL_COLORS.get(level, LEVEL_COLORS[0])`. -/
def levelColor (level : Nat) : String :=
  ((LEVEL_COLORS.find? (fun p => p.1 == level)).map (fun p => p.2)).getD "#161b22"

/-- Python `date.weekday()` for our day-number encoding (day 0 of the
epoch is a Monday): Monday = 0 .. Sunday = 6. -/
def weekday (date : Nat) : Nat := date % 7

/-- The script's Sunday-indexed day of week: `(date.weekday() + 1) % 7`. -/
def dayOfWeek (date : Nat) : Nat := (weekday date + 1) % 7

/-- The mutation `build_calendar_grid` performs on each record dict:
`contrib['day_of_week'] = (weekday+1)%7; contrib['x'] = 0; contrib['y'] = 0`. -/
def setExtras (c : Contrib) : Contrib :=
  { c with day_of_week := some (dayOfWeek c.date), x := some 0, y := some 0 }

/-- `sorted(contributions, key=lambda x: x['date'])` (stable, and on ISO
date strings lexicographic order is chronological order). -/
def sortedByDate (cs : List Contrib) : List Contrib :=
  List.insertionSort (fun a b => a.date ≤ b.date) cs

/-- The week-accumulation loop of `build_calendar_grid` (lines 247-259):
each record is mutated via `setExtras`, written into slot `day_of_week`
of the current week, and a week is appended (and the current week reset)
exactly when a Saturday slot (`day_of_week == 6`) was just filled.
Returns (weeks_data, current_week). -/
def insertLoop : List Contrib → List (Option Contrib) → List (List (Option Contrib)) →
    List (List (Option Contrib)) × List (Option Contrib)
  | [], current_week, weeks_data => (weeks_data, current_week)
  | contrib :: rest, current_week, weeks_data =>
    let c := setExtras contrib
    let cur := current_week.set (dayOfWeek contrib.date) (some c)
    if dayOfWeek contrib.date = 6 then
      insertLoop rest (List.replicate 7 none) (weeks_data ++ [cur])
    else
      insertLoop rest cur weeks_data

/-- Lines 241-262 of the script: sort, run the week loop, and flush the
final partial week if any of its slots is occupied. -/
def flushedWeeks (cs : List Contrib) : List (List (Option Contrib)) :=
  let r := insertLoop (sortedByDate cs) (List.replicate 7 none) []
  if r.2.any (fun o => o.isSome) then r.1 ++ [r.2] else r.1

/-- `weeks_data = weeks_data[-WEEKS_TO_SHOW:]` (line 265). -/
def weeksDataOf (cs : List Contrib) : List (List (Option Contrib)) :=
  (flushedWeeks cs).drop ((flushedWeeks cs).length - WEEKS_TO_SHOW)

/-- Lines 268-273: convert the week list to `grid[row][col]` form
(row = day of week, col = week index).  Since every week list has length
7 and entries are copied only when present, `grid[d][w] = weeks[w][d]`. -/
def gridOf (weeksData : List (List (Option Contrib))) : List (List (Option Contrib)) :=
  (List.range DAYS_IN_WEEK).map (fun d => weeksData.map (fun wk => wk.getD d none))

/-- Result of `build_calendar_grid`: the empty-input branch (line 238)
returns a bare 7 x 53 grid, the main branch (line 275) returns the pair
`grid, weeks_data`. -/
inductive BuildResult where
  | gridOnly (grid : List (List (Option Contrib))) : BuildResult
  | withWeeks (grid weeksData : List (List (Option Contrib))) : BuildResult
deriving DecidableEq, Repr

/-- `build_calendar_grid`.  The second component is the state of the
caller's record list after the call: the loop mutates every record dict
in place (the extra keys `day_of_week`, `x`, `y` are added), while the
empty-input branch returns before touching any record. -/
def build_calendar_grid (cs : List Contrib) : BuildResult × List Contrib :=
  if cs.isEmpty then
    (.gridOnly (List.replicate DAYS_IN_WEEK (List.replicate WEEKS_TO_SHOW none)), cs)
  else
    (.withWeeks (gridOf (weeksDataOf cs)) (weeksDataOf cs), cs.map setExtras)

/-- Read `grid[r][c]`, `none` when out of range (the script only indexes
in range; `generate_svg` additionally guards with
`col < len(grid[row])`). -/
def gridEntry (grid : List (List (Option Contrib))) (r c : Nat) : Option Contrib :=
  (grid.getD r []).getD c none

/-- The Saturday terminating the calendar week of a date (weeks run
Sunday..Saturday, as in the script's Sunday-indexed convention). -/
def satOf (date : Nat) : Nat := date + (12 - weekday date) % 7

/-- Number of populated (non-`none`) cells of a grid. -/
def populatedCount (grid : List (List (Option Contrib))) : Nat :=
  (grid.map (fun row => (row.filter (fun o => o.isSome)).length)).sum

-- ### Simple facts used by several claims

theorem insertLoop_nil (cur acc) : insertLoop [] cur acc = (acc, cur) := rfl

/-- Claim C8: `build_calendar_grid` on the empty collection returns the
all-empty 7-row by 53-column grid (every slot absent) and leaves the
(empty) input list untouched; being a total function it raises no error. -/
theorem c8_empty_input_grid :
    build_calendar_grid [] =
      (.gridOnly (List.replicate 7 (List.replicate 53 (none : Option Contrib))), []) := rfl

/-- Claim C10: `contribution_level_to_int` is total with range contained
in `0..4`, maps the five named quartile strings to `0,1,2,3,4`, and maps
every other string to `0`. -/
theorem c10_level_to_int_total (s : String)
    (hs : s ∉ ["NONE", "FIRST_QUARTILE", "SECOND_QUARTILE", "THIRD_QUARTILE", "FOURTH_QUARTILE"]) :
    contribution_level_to_int s = 0 ∧
    (∀ t : String, contribution_level_to_int t ≤ 4) ∧
    contribution_level_to_int "NONE" = 0 ∧
    contribution_level_to_int "FIRST_QUARTILE" = 1 ∧
    contribution_level_to_int "SECOND_QUARTILE" = 2 ∧
    contribution_level_to_int "THIRD_QUARTILE" = 3 ∧
    contribution_level_to_int "FOURTH_QUARTILE" = 4 := by
  refine ⟨?_, ?_, rfl, rfl, rfl, rfl, rfl⟩
  · have hnone : level_map.find? (fun p => p.1 == s) = none := by
      rw [List.find?_eq_none]
      intro p hp
      simp only [level_map, List.mem_cons, List.not_mem_nil, or_false] at hp
      rcases hp with h | h | h | h | h <;> subst h <;>
        simpa using fun h => hs (by simp [h.symm])
    simp [contribution_level_to_int, hnone]
  · intro t
    rcases hfind : level_map.find? (fun p => p.1 == t) with _ | p
    · simp [contribution_level_to_int, hfind]
    · have hp := List.mem_of_find?_eq_some hfind
      simp only [level_map, List.mem_cons, List.not_mem_nil, or_false] at hp
      rcases hp with h | h | h | h | h <;> subst h <;>
        simp [contribution_level_to_int, hfind]

/-- Witness for C10 at the concrete input `"BOGUS"`. -/
theorem c10_level_to_int_total_witness :
    contribution_level_to_int "BOGUS" = 0 ∧
    (∀ t : String, contribution_level_to_int t ≤ 4) ∧
    contribution_level_to_int "NONE" = 0 ∧
    contribution_level_to_int "FIRST_QUARTILE" = 1 ∧
    contribution_level_to_int "SECOND_QUARTILE" = 2 ∧
    contribution_level_to_int "THIRD_QUARTILE" = 3 ∧
    contribution_level_to_int "FOURTH_QUARTILE" = 4 :=
  c10_level_to_int_total "BOGUS" (by decide)

-- ### Claim C3: the Grid Builder mutates its input records

/-- The original fields of a record dict. -/
def coreFields (c : Contrib) : Nat × Nat × Nat := (c.date, c.count, c.level)

/-- Counterexample to claim C3: after `build_calendar_grid` runs on a
one-record list, the record has acquired the keys `day_of_week`, `x`,
`y`, so the caller's records are not left unchanged. -/
theorem c3_mutation_counterexample :
    (build_calendar_grid [{ date := 0, count := 1, level := 1 }]).2 ≠
      [{ date := 0, count := 1, level := 1 }] := by decide

/-- Claim C3 as amended: `build_calendar_grid` preserves the values of
the original fields `date`, `count`, `level` of every input record, but
on any non-empty input it adds the fields `day_of_week` (set to the
record's Sunday-indexed day of week), `x` and `y` (both set to `0`) to
every record. -/
theorem c3_mutation_amended (cs : List Contrib) (u : Contrib)
    (hu : u ∈ (build_calendar_grid cs).2) :
    (build_calendar_grid cs).2.map coreFields = cs.map coreFields ∧
    (cs ≠ [] →
      u.day_of_week = some (dayOfWeek u.date) ∧ u.x = some 0 ∧ u.y = some 0) := by
  by_cases h : cs.isEmpty
  · refine ⟨by simp [build_calendar_grid, h], fun hne => absurd (List.isEmpty_iff.mp h) hne⟩
  · have h' : cs.isEmpty = false := by simpa using h
    simp only [build_calendar_grid, h', Bool.false_eq_true, if_false] at hu ⊢
    constructor
    · rw [List.map_map]
      rfl
    · intro _
      rcases List.mem_map.mp hu with ⟨c, _, rfl⟩
      exact ⟨rfl, rfl, rfl⟩

/-- Witness for the amended C3 at a concrete one-record input. -/
theorem c3_mutation_amended_witness :
    (build_calendar_grid [{ date := 0, count := 1, level := 1 }]).2.map coreFields =
      [({ date := 0, count := 1, level := 1 } : Contrib)].map coreFields ∧
    (([{ date := 0, count := 1, level := 1 }] : List Contrib) ≠ [] →
      (setExtras { date := 0, count := 1, level := 1 }).day_of_week =
          some (dayOfWeek (setExtras { date := 0, count := 1, level := 1 }).date) ∧
        (setExtras { date := 0, count := 1, level := 1 }).x = some 0 ∧
        (setExtras { date := 0, count := 1, level := 1 }).y = some 0) :=
  c3_mutation_amended [{ date := 0, count := 1, level := 1 }]
    (setExtras { date := 0, count := 1, level := 1 }) (by decide)

-- ### Claim C5: at most 53 columns, most recent weeks kept in order

/-- Claim C5: the retained `weeks_data` has at most 53 columns, is a
suffix of the full chronological week list (so the retained columns are
the most recent ones and keep their order), has exactly 53 columns as
soon as at least 53 weeks were formed, and every grid row has exactly
one slot per retained column. -/
theorem c5_last_53_columns (cs : List Contrib) :
    (weeksDataOf cs).length ≤ 53 ∧
    (weeksDataOf cs) <:+ (flushedWeeks cs) ∧
    (53 ≤ (flushedWeeks cs).length → (weeksDataOf cs).length = 53) ∧
    (∀ row ∈ gridOf (weeksDataOf cs), row.length = (weeksDataOf cs).length) := by
  refine ⟨?_, List.drop_suffix _ _, ?_, ?_⟩
  · simp only [weeksDataOf, List.length_drop, WEEKS_TO_SHOW]
    omega
  · intro h
    simp only [weeksDataOf, List.length_drop, WEEKS_TO_SHOW] at *
    omega
  · intro row hrow
    rcases List.mem_map.mp hrow with ⟨d, _, rfl⟩
    simp

/-- 54 consecutive Saturdays: forms 54 week columns before truncation. -/
def ex54 : List Contrib :=
  (List.range 54).map (fun i => { date := 5 + 7 * i, count := 1, level := 1 })

/-- Witness for C5 at the concrete 54-week input `ex54`: more than 53
weeks are formed and exactly the last 53 are retained. -/
theorem c5_last_53_columns_witness :
    53 ≤ (flushedWeeks ex54).length ∧ (weeksDataOf ex54).length = 53 :=
  ⟨by decide, (c5_last_53_columns ex54).2.2.1 (by decide)⟩

-- ### Claim C4: row placement and column/week coherence

/-- Every filled slot of a week list sits at the index equal to its
record's Sunday-indexed day of week. -/
def WeekOk (wk : List (Option Contrib)) : Prop :=
  ∀ i u, wk.getD i none = some u → dayOfWeek u.date = i

/-- All records of a week list belong to the same Saturday-terminated
calendar week. -/
def CoWeek (wk : List (Option Contrib)) : Prop :=
  ∀ u ∈ wk.filterMap id, ∀ v ∈ wk.filterMap id, satOf u.date = satOf v.date

theorem dayOfWeek_lt (d : Nat) : dayOfWeek d < 7 :=
  Nat.mod_lt _ (by norm_num)

theorem dayOfWeek_setExtras (c : Contrib) :
    dayOfWeek (setExtras c).date = dayOfWeek c.date := rfl

theorem weekOk_replicate : WeekOk (List.replicate 7 none) := by
  intro i u hu
  rw [List.getD_eq_getElem?_getD, List.getElem?_replicate] at hu
  by_cases h : i < 7 <;> simp [h] at hu

theorem weekOk_set (cur : List (Option Contrib)) (c : Contrib)
    (h : WeekOk cur) (hlen : cur.length = 7) :
    WeekOk (cur.set (dayOfWeek c.date) (some (setExtras c))) := by
  intro i u hu
  rw [List.getD_eq_getElem?_getD, List.getElem?_set] at hu
  by_cases hij : dayOfWeek c.date = i
  · rw [if_pos hij, if_pos (by rw [hlen]; exact dayOfWeek_lt _)] at hu
    simp only [Option.getD_some, Option.some.injEq] at hu
    rw [← hu, dayOfWeek_setExtras, hij]
  · rw [if_neg hij] at hu
    exact h i u (by rw [List.getD_eq_getElem?_getD]; exact hu)

theorem insertLoop_weekOk :
    ∀ (l : List Contrib) (cur : List (Option Contrib)) (acc : List (List (Option Contrib))),
    cur.length = 7 → WeekOk cur → (∀ wk ∈ acc, wk.length = 7 ∧ WeekOk wk) →
    (∀ wk ∈ (insertLoop l cur acc).1, wk.length = 7 ∧ WeekOk wk) ∧
    ((insertLoop l cur acc).2.length = 7 ∧ WeekOk (insertLoop l cur acc).2)
  | [], cur, acc => by
    intro h1 h2 h3
    exact ⟨h3, h1, h2⟩
  | contrib :: rest, cur, acc => by
    intro h1 h2 h3
    rw [insertLoop]
    by_cases hd : dayOfWeek contrib.date = 6
    · rw [if_pos hd]
      refine insertLoop_weekOk rest _ _ (by simp) weekOk_replicate ?_
      intro wk hwk
      rcases List.mem_append.mp hwk with h | h
      · exact h3 wk h
      · rcases List.mem_singleton.mp h with rfl
        exact ⟨by simp [h1], weekOk_set cur contrib h2 h1⟩
    · rw [if_neg hd]
      exact insertLoop_weekOk rest _ _ (by simp [h1]) (weekOk_set cur contrib h2 h1) h3

/-- Every week list retained in `weeks_data` has 7 slots and respects
the day-of-week placement. -/
theorem weeksDataOf_weekOk (cs : List Contrib) :
    ∀ wk ∈ weeksDataOf cs, wk.length = 7 ∧ WeekOk wk := by
  intro wk hwk
  have hwk' : wk ∈ flushedWeeks cs := List.drop_subset _ _ hwk
  have hinv := insertLoop_weekOk (sortedByDate cs) (List.replicate 7 none) []
    (by simp) weekOk_replicate (by simp)
  rw [flushedWeeks] at hwk'
  by_cases hany : ((insertLoop (sortedByDate cs) (List.replicate 7 none) []).2.any
      (fun o => o.isSome)) = true
  · simp only [hany, if_true] at hwk'
    rcases List.mem_append.mp hwk' with h | h
    · exact hinv.1 wk h
    · rcases List.mem_singleton.mp h with rfl
      exact hinv.2
  · simp only [hany, Bool.false_eq_true, if_false] at hwk'
    exact hinv.1 wk hwk'

/-- Shape of a grid lookup: `grid[r][c]` reads slot `r` of week `c`. -/
theorem gridEntry_gridOf (wd : List (List (Option Contrib))) (r c : Nat) :
    gridEntry (gridOf wd) r c =
      if r < 7 ∧ c < wd.length then (wd.getD c []).getD r none else none := by
  unfold gridEntry gridOf DAYS_IN_WEEK
  simp only [List.getD_eq_getElem?_getD, List.getElem?_map]
  by_cases hr : r < 7
  · rw [List.getElem?_range hr]
    by_cases hc : c < wd.length
    · have hwc : wd[c]? = some wd[c] := List.getElem?_eq_some_iff.mpr ⟨hc, rfl⟩
      rw [if_pos ⟨hr, hc⟩]
      simp [hwc]
    · have hwc : wd[c]? = none := List.getElem?_eq_none (by omega)
      rw [if_neg (by tauto)]
      simp [hwc]
  · have h7 : (List.range 7)[r]? = none := List.getElem?_eq_none (by simpa using hr)
    rw [h7, if_neg (by tauto)]
    simp

/-- A record read out of a grid slot is a member of that week's entry
list. -/
theorem mem_entries_of_getD {wk : List (Option Contrib)} {r : Nat} {u : Contrib}
    (h : wk.getD r none = some u) : u ∈ wk.filterMap id := by
  rw [List.getD_eq_getElem?_getD] at h
  rcases hg : wk[r]? with _ | o
  · rw [hg] at h; simp at h
  · rw [hg] at h
    simp only [Option.getD_some] at h
    subst h
    exact List.mem_filterMap.mpr ⟨some u, List.getElem?_mem hg, rfl⟩

/-- Stepping one day forward stays inside the same Saturday-terminated
week unless the day stepped from is itself a Saturday. -/
theorem satOf_succ (d : Nat) (h : d % 7 ≠ 5) : satOf (d + 1) = satOf d := by
  unfold satOf weekday
  omega

theorem entries_replicate : (List.replicate 7 (none : Option Contrib)).filterMap id = [] := by
  decide

theorem mem_entries_set {cur : List (Option Contrib)} {j : Nat} {c u : Contrib}
    (h : u ∈ (cur.set j (some c)).filterMap id) :
    u = c ∨ u ∈ cur.filterMap id := by
  rcases List.mem_filterMap.mp h with ⟨o, ho, hoc⟩
  rcases List.mem_or_eq_of_mem_set ho with h' | h'
  · right
    exact List.mem_filterMap.mpr ⟨o, h', hoc⟩
  · left
    rw [h'] at hoc
    exact (Option.some.injEq _ _ ▸ hoc.symm :)

theorem insertLoop_coherent :
    ∀ (l : List Contrib) (cur : List (Option Contrib)) (acc : List (List (Option Contrib))),
    List.Chain' (fun a b => b.date = a.date + 1) l →
    (∀ wk ∈ acc, CoWeek wk) →
    (∀ u ∈ cur.filterMap id, ∀ v ∈ cur.filterMap id, satOf u.date = satOf v.date) →
    (∀ u ∈ cur.filterMap id, ∀ c0 ∈ l.head?, satOf u.date = satOf c0.date) →
    (∀ wk ∈ (insertLoop l cur acc).1, CoWeek wk) ∧ CoWeek (insertLoop l cur acc).2
  | [], cur, acc => by
    intro _ hacc hcur _
    exact ⟨hacc, hcur⟩
  | contrib :: rest, cur, acc => by
    intro hchain hacc hcur hnext
    have hsame : ∀ u ∈ (cur.set (dayOfWeek contrib.date)
        (some (setExtras contrib))).filterMap id, satOf u.date = satOf contrib.date := by
      intro u hu
      rcases mem_entries_set hu with rfl | hu'
      · rfl
      · exact hnext u hu' contrib rfl
    have hco : CoWeek (cur.set (dayOfWeek contrib.date) (some (setExtras contrib))) := by
      intro u hu v hv
      rw [hsame u hu, hsame v hv]
    rw [insertLoop]
    by_cases hd : dayOfWeek contrib.date = 6
    · rw [if_pos hd]
      refine insertLoop_coherent rest _ _ hchain.tail ?_ ?_ ?_
      · intro wk hwk
        rcases List.mem_append.mp hwk with h | h
        · exact hacc wk h
        · rcases List.mem_singleton.mp h with rfl
          exact hco
      · intro u hu
        rw [entries_replicate] at hu
        cases hu
      · intro u hu
        rw [entries_replicate] at hu
        cases hu
    · rw [if_neg hd]
      refine insertLoop_coherent rest _ _ hchain.tail hacc hco ?_
      intro u hu c0 hc0
      have h1 : satOf u.date = satOf contrib.date := hsame u hu
      have h2 : c0.date = contrib.date + 1 := (List.chain'_cons'.mp hchain).1 c0 hc0
      have h3 : contrib.date % 7 ≠ 5 := by
        intro h5
        apply hd
        unfold dayOfWeek weekday
        omega
      rw [h1, h2, satOf_succ _ h3]

/-- Under a gap-free (consecutive-dates) sorted input, every retained
week column is calendar-week coherent. -/
theorem weeksDataOf_coherent (cs : List Contrib)
    (hchain : List.Chain' (fun a b => b.date = a.date + 1) (sortedByDate cs)) :
    ∀ wk ∈ weeksDataOf cs, CoWeek wk := by
  intro wk hwk
  have hwk' : wk ∈ flushedWeeks cs := List.drop_subset _ _ hwk
  have hinv := insertLoop_coherent (sortedByDate cs) (List.replicate 7 none) []
    hchain (by simp) (by rw [entries_replicate]; intro u hu; cases hu)
    (by rw [entries_replicate]; intro u hu; cases hu)
  rw [flushedWeeks] at hwk'
  by_cases hany : ((insertLoop (sortedByDate cs) (List.replicate 7 none) []).2.any
      (fun o => o.isSome)) = true
  · simp only [hany, if_true] at hwk'
    rcases List.mem_append.mp hwk' with h | h
    · exact hinv.1 wk h
    · rcases List.mem_singleton.mp h with rfl
      exact hinv.2
  · simp only [hany, Bool.false_eq_true, if_false] at hwk'
    exact hinv.1 wk hwk'

/-- Counterexample to claim C4: the input `[{date 6 (a Sunday)},
{date 14 (the Monday eight days later)}]` has a one-week gap with no
Saturday record in between, so both records land in the same (single)
grid column even though they belong to different Saturday-terminated
calendar weeks. -/
theorem c4_column_counterexample :
    gridEntry (gridOf (weeksDataOf
        [{ date := 6, count := 1, level := 1 }, { date := 14, count := 1, level := 1 }])) 0 0 =
      some (setExtras { date := 6, count := 1, level := 1 }) ∧
    gridEntry (gridOf (weeksDataOf
        [{ date := 6, count := 1, level := 1 }, { date := 14, count := 1, level := 1 }])) 1 0 =
      some (setExtras { date := 14, count := 1, level := 1 }) ∧
    satOf 6 ≠ satOf 14 := by
  refine ⟨by decide, by decide, by decide⟩

/-- Claim C4 as amended: every record stored in the grid sits at the row
equal to its date's Sunday-indexed day of week ((weekday + 1) mod 7)
unconditionally; and provided the sorted input dates form a consecutive
run of days (no gaps), any two records stored in the same grid column
belong to the same Saturday-terminated calendar week.  (For inputs with
gaps the column part fails, as the counterexample shows.) -/
theorem c4_row_and_column (cs : List Contrib) (w r1 r2 : Nat) (u1 u2 : Contrib)
    (h1 : gridEntry (gridOf (weeksDataOf cs)) r1 w = some u1)
    (h2 : gridEntry (gridOf (weeksDataOf cs)) r2 w = some u2) :
    dayOfWeek u1.date = r1 ∧ dayOfWeek u2.date = r2 ∧
    (List.Chain' (fun a b => b.date = a.date + 1) (sortedByDate cs) →
      satOf u1.date = satOf u2.date) := by
  rw [gridEntry_gridOf] at h1 h2
  by_cases hb : r1 < 7 ∧ w < (weeksDataOf cs).length
  · rw [if_pos hb] at h1
    by_cases hb2 : r2 < 7 ∧ w < (weeksDataOf cs).length
    · rw [if_pos hb2] at h2
      have hwm : (weeksDataOf cs).getD w [] ∈ weeksDataOf cs := by
        rw [List.getD_eq_getElem?_getD,
          List.getElem?_eq_some_iff.mpr ⟨hb.2, rfl⟩]
        exact List.getElem_mem _
      refine ⟨(weeksDataOf_weekOk cs _ hwm).2 r1 u1 h1,
              (weeksDataOf_weekOk cs _ hwm).2 r2 u2 h2, ?_⟩
      intro hchain
      exact weeksDataOf_coherent cs hchain _ hwm u1 (mem_entries_of_getD h1)
        u2 (mem_entries_of_getD h2)
    · rw [if_neg hb2] at h2
      cases h2
  · rw [if_neg hb] at h1
    cases h1

/-- Witness for the amended C4: two consecutive days (a Monday and a
Tuesday) land in rows 1 and 2 of the same column, and the coherence part
applies since the sorted dates are consecutive. -/
theorem c4_row_and_column_witness :
    dayOfWeek (setExtras { date := 0, count := 1, level := 1 } : Contrib).date = 1 ∧
    dayOfWeek (setExtras { date := 1, count := 2, level := 2 } : Contrib).date = 2 ∧
    (List.Chain' (fun a b => b.date = a.date + 1)
        (sortedByDate [{ date := 0, count := 1, level := 1 },
          { date := 1, count := 2, level := 2 }]) →
      satOf (setExtras { date := 0, count := 1, level := 1 } : Contrib).date =
        satOf (setExtras { date := 1, count := 2, level := 2 } : Contrib).date) := by
  have h := c4_row_and_column
    [{ date := 0, count := 1, level := 1 }, { date := 1, count := 2, level := 2 }]
    0 1 2 (setExtras { date := 0, count := 1, level := 1 })
    (setExtras { date := 1, count := 2, level := 2 }) (by decide) (by decide)
  exact h

-- ### Path planner: cells and the serpentine traversal (generate_svg, lines 313-343)

/-- One entry of the `cells` list built at lines 313-327 of
`generate_svg` (`CELL_SIZE // 2 = 5`). -/
structure Cell where
  x : Nat
  y : Nat
  cx : Nat
  cy : Nat
  row : Nat
  col : Nat
  data : Option Contrib
deriving DecidableEq, Repr

def mkCellAt (grid : List (List (Option Contrib))) (row col : Nat) : Cell :=
  { x := MARGIN_LEFT + col * (CELL_SIZE + CELL_GAP)
    y := MARGIN_TOP + row * (CELL_SIZE + CELL_GAP)
    cx := MARGIN_LEFT + col * (CELL_SIZE + CELL_GAP) + CELL_SIZE / 2
    cy := MARGIN_TOP + row * (CELL_SIZE + CELL_GAP) + CELL_SIZE / 2
    row := row
    col := col
    data := gridEntry grid row col }

/-- The row-major `cells` list (lines 314-327), including the
`grid[row][col] if col < len(grid[row]) else None` guard (via
`gridEntry`). -/
def cellsRowMajor (grid : List (List (Option Contrib))) (numWeeks : Nat) : List Cell :=
  (List.range DAYS_IN_WEEK).flatMap
    (fun row => (List.range numWeeks).map (fun col => mkCellAt grid row col))

/-- An entry of `path_points`: `(cell['cx'], cell['cy'], cell)`. -/
structure PathPoint where
  px : Nat
  py : Nat
  cell : Cell
deriving DecidableEq, Repr

def toPoint (c : Cell) : PathPoint := { px := c.cx, py := c.cy, cell := c }

/-- `row_cells` for one row: filter the row, then stable sort by column,
ascending for even rows and descending (`reverse=True`) for odd rows
(lines 333-340). -/
def rowCellsSorted (cells : List Cell) (row : Nat) : List Cell :=
  if row % 2 = 0 then
    List.insertionSort (fun a b => a.col ≤ b.col) (cells.filter (fun c => c.row == row))
  else
    List.insertionSort (fun a b => b.col ≤ a.col) (cells.filter (fun c => c.row == row))

/-- `path_points` (lines 331-343). -/
def pathPointsOf (cells : List Cell) : List PathPoint :=
  (List.range DAYS_IN_WEEK).flatMap
    (fun row => (rowCellsSorted cells row).map toPoint)

/-- Column order of a row in the serpentine: ascending for even rows,
descending for odd rows. -/
def dirCols (row n : Nat) : List Nat :=
  if row % 2 = 0 then List.range n else (List.range n).reverse

instance : IsTotal Cell (fun a b => a.col ≤ b.col) :=
  ⟨fun a b => Nat.le_total a.col b.col⟩

instance : IsTrans Cell (fun a b => a.col ≤ b.col) :=
  ⟨fun _ _ _ h1 h2 => Nat.le_trans h1 h2⟩

instance : IsTotal Cell (fun a b => b.col ≤ a.col) :=
  ⟨fun a b => Nat.le_total b.col a.col⟩

instance : IsTrans Cell (fun a b => b.col ≤ a.col) :=
  ⟨fun _ _ _ h1 h2 => Nat.le_trans h2 h1⟩

instance : IsAntisymm Cell (fun a b => b.col < a.col) :=
  ⟨fun _ _ h1 h2 => absurd (Nat.lt_trans h1 h2) (Nat.lt_irrefl _)⟩

theorem block_filter (grid : List (List (Option Contrib))) (n r' row : Nat) :
    ((List.range n).map (mkCellAt grid r')).filter (fun c => c.row == row)
      = if r' = row then (List.range n).map (mkCellAt grid r') else [] := by
  rw [List.filter_map]
  by_cases h : r' = row
  · subst h
    rw [if_pos rfl]
    have : ((fun c : Cell => c.row == r') ∘ mkCellAt grid r') = fun _ => true := by
      funext c
      simp [mkCellAt]
    rw [this, List.filter_true]
  · rw [if_neg h]
    have : ((fun c : Cell => c.row == row) ∘ mkCellAt grid r') = fun _ => false := by
      funext c
      simp [mkCellAt, h]
    rw [this, List.filter_false, List.map_nil]

theorem cells_filter_row (grid : List (List (Option Contrib))) (n row : Nat) (hrow : row < 7) :
    (cellsRowMajor grid n).filter (fun c => c.row == row)
      = (List.range n).map (mkCellAt grid row) := by
  have h7 : List.range 7 = [0, 1, 2, 3, 4, 5, 6] := rfl
  unfold cellsRowMajor DAYS_IN_WEEK
  rw [h7]
  simp only [List.flatMap_cons, List.flatMap_nil, List.filter_append, block_filter,
    List.append_nil]
  interval_cases row <;> simp

/-- The ascending block is already sorted by column. -/
theorem block_sorted_asc (grid : List (List (Option Contrib))) (n row : Nat) :
    List.Sorted (fun a b : Cell => a.col ≤ b.col) ((List.range n).map (mkCellAt grid row)) := by
  refine List.Pairwise.map _ ?_ (List.pairwise_lt_range n)
  intro a b hab
  simpa [mkCellAt] using Nat.le_of_lt hab

theorem insertionSort_asc_block (grid : List (List (Option Contrib))) (n row : Nat) :
    List.insertionSort (fun a b => a.col ≤ b.col) ((List.range n).map (mkCellAt grid row))
      = (List.range n).map (mkCellAt grid row) :=
  List.Sorted.insertionSort_eq (block_sorted_asc grid n row)

theorem block_cols_nodup (grid : List (List (Option Contrib))) (n row : Nat) :
    (((List.range n).map (mkCellAt grid row)).map (fun c => c.col)).Nodup := by
  rw [List.map_map]
  have : ((fun c : Cell => c.col) ∘ mkCellAt grid row) = id := by
    funext c
    simp [mkCellAt]
  rw [this, List.map_id]
  exact List.nodup_range n

/-- Sorting the block descending by column yields its reverse. -/
theorem insertionSort_desc_block (grid : List (List (Option Contrib))) (n row : Nat) :
    List.insertionSort (fun a b => b.col ≤ a.col) ((List.range n).map (mkCellAt grid row))
      = ((List.range n).map (mkCellAt grid row)).reverse := by
  have hperm1 : List.Perm (List.insertionSort (fun a b => b.col ≤ a.col)
      ((List.range n).map (mkCellAt grid row))) ((List.range n).map (mkCellAt grid row)) :=
    List.perm_insertionSort _ _
  have hperm : List.Perm (List.insertionSort (fun a b => b.col ≤ a.col)
      ((List.range n).map (mkCellAt grid row)))
        (((List.range n).map (mkCellAt grid row)).reverse) :=
    hperm1.trans (List.reverse_perm _).symm
  have hsorted : List.Sorted (fun a b : Cell => b.col ≤ a.col)
      (List.insertionSort (fun a b => b.col ≤ a.col)
        ((List.range n).map (mkCellAt grid row))) :=
    List.sorted_insertionSort _ _
  have hnodup : ((List.insertionSort (fun a b => b.col ≤ a.col)
      ((List.range n).map (mkCellAt grid row))).map (fun c => c.col)).Nodup :=
    ((hperm1.map (fun c => c.col)).nodup_iff).mpr (block_cols_nodup grid n row)
  have hne : (List.insertionSort (fun a b => b.col ≤ a.col)
      ((List.range n).map (mkCellAt grid row))).Pairwise
        (fun a b : Cell => a.col ≠ b.col) := List.pairwise_map.mp hnodup
  have hstrict1 : List.Sorted (fun a b : Cell => b.col < a.col)
      (List.insertionSort (fun a b => b.col ≤ a.col)
        ((List.range n).map (mkCellAt grid row))) := by
    refine (hsorted.and hne).imp ?_
    intro a b hab
    exact Nat.lt_of_le_of_ne hab.1 (fun h => hab.2 h.symm)
  have hstrict2 : List.Sorted (fun a b : Cell => b.col < a.col)
      (((List.range n).map (mkCellAt grid row)).reverse) := by
    rw [List.Sorted, List.pairwise_reverse]
    refine List.Pairwise.map _ ?_ (List.pairwise_lt_range n)
    intro a b hab
    simpa [mkCellAt, flip] using hab
  exact List.eq_of_perm_of_sorted hperm hstrict1 hstrict2

/-- Characterization of a row's sorted cell list for the grid's cells. -/
theorem rowCellsSorted_eq (grid : List (List (Option Contrib))) (n row : Nat) (h : row < 7) :
    rowCellsSorted (cellsRowMajor grid n) row
      = (dirCols row n).map (mkCellAt grid row) := by
  unfold rowCellsSorted dirCols
  by_cases hp : row % 2 = 0
  · rw [if_pos hp, if_pos hp, cells_filter_row grid n row h, insertionSort_asc_block]
  · rw [if_neg hp, if_neg hp, cells_filter_row grid n row h, insertionSort_desc_block,
      List.map_reverse]

/-- The serpentine path in closed form: row blocks 0..6 in order, with
the column order alternating by row parity. -/
theorem pathPointsOf_eq (grid : List (List (Option Contrib))) (n : Nat) :
    pathPointsOf (cellsRowMajor grid n)
      = (List.range DAYS_IN_WEEK).flatMap
          (fun row => (dirCols row n).map (fun col => toPoint (mkCellAt grid row col))) := by
  unfold pathPointsOf
  refine List.flatMap_congr ?_
  intro row hrow
  rw [rowCellsSorted_eq grid n row (by simpa [DAYS_IN_WEEK] using List.mem_range.mp hrow)]
  rw [List.map_map]
  rfl

-- ### Claim C7: the serpentine traversal

/-- The points of one serpentine row block. -/
def blockPts (grid : List (List (Option Contrib))) (n row : Nat) : List PathPoint :=
  (dirCols row n).map (fun col => toPoint (mkCellAt grid row col))

/-- One serpentine step: either stay in the row moving one column in the
direction given by the row's parity, or move down one row at the same
column (which is what happens at the turn of each row). -/
def serpStep (p q : PathPoint) : Prop :=
  (q.cell.row = p.cell.row ∧
    (p.cell.row % 2 = 0 → q.cell.col = p.cell.col + 1) ∧
    (p.cell.row % 2 = 1 → q.cell.col + 1 = p.cell.col)) ∨
  (q.cell.row = p.cell.row + 1 ∧ q.cell.col = p.cell.col)

theorem chain_block (grid : List (List (Option Contrib))) (n row : Nat) :
    List.Chain' serpStep (blockPts grid n row) := by
  unfold blockPts dirCols
  rw [List.chain'_map]
  cases n with
  | zero => by_cases hp : row % 2 = 0 <;> simp [hp]
  | succ m =>
    by_cases hp : row % 2 = 0
    · rw [if_pos hp, List.chain'_range_succ]
      intro i him
      left
      simp [toPoint, mkCellAt, hp]
    · rw [if_neg hp, List.chain'_reverse, List.chain'_range_succ]
      intro i him
      left
      have h1 : row % 2 = 1 := by omega
      simp [toPoint, mkCellAt, flip, h1]

theorem block_getLast? (grid : List (List (Option Contrib))) (m row : Nat) :
    (blockPts grid (m + 1) row).getLast?
      = some (toPoint (mkCellAt grid row (if row % 2 = 0 then m else 0))) := by
  unfold blockPts dirCols
  by_cases hp : row % 2 = 0
  · rw [if_pos hp, if_pos hp, List.range_succ, List.map_append]
    exact List.getLast?_concat _
  · rw [if_neg hp, if_neg hp, List.map_reverse, List.getLast?_reverse,
      List.range_succ_eq_map]
    rfl

theorem block_head? (grid : List (List (Option Contrib))) (m row : Nat) :
    (blockPts grid (m + 1) row).head?
      = some (toPoint (mkCellAt grid row (if row % 2 = 0 then 0 else m))) := by
  unfold blockPts dirCols
  by_cases hp : row % 2 = 0
  · rw [if_pos hp, if_pos hp, List.range_succ_eq_map]
    rfl
  · rw [if_neg hp, if_neg hp, List.map_reverse, List.head?_reverse, List.range_succ,
      List.map_append]
    exact List.getLast?_concat _

/-- At the turn between two consecutive row blocks the serpentine moves
down one row at an unchanged column. -/
theorem serp_junction (grid : List (List (Option Contrib))) (n r : Nat) :
    ∀ x ∈ (blockPts grid n r).getLast?, ∀ y ∈ (blockPts grid n (r + 1)).head?, serpStep x y := by
  cases n with
  | zero =>
    intro x hx
    by_cases hp : r % 2 = 0 <;> simp [blockPts, dirCols, hp] at hx
  | succ m =>
    intro x hx y hy
    rw [block_getLast? grid m r] at hx
    rw [block_head? grid m (r + 1)] at hy
    rw [Option.mem_def, Option.some.injEq] at hx hy
    subst hx
    subst hy
    right
    constructor
    · rfl
    · by_cases hp : r % 2 = 0
      · have hp1 : ¬((r + 1) % 2 = 0) := by omega
        simp [toPoint, mkCellAt, hp, hp1]
      · have hp1 : (r + 1) % 2 = 0 := by omega
        simp [toPoint, mkCellAt, hp, hp1]

/-- The concatenation of consecutive row blocks is a serpentine chain. -/
theorem chain_blocks_range' (grid : List (List (Option Contrib))) (n : Nat) :
    ∀ (k r : Nat), List.Chain' serpStep ((List.range' r k).flatMap (blockPts grid n))
  | 0, r => by simp
  | k + 1, r => by
    rw [List.range'_succ, List.flatMap_cons]
    refine List.Chain'.append (chain_block grid n r) (chain_blocks_range' grid n k (r + 1)) ?_
    intro x hx y hy
    cases k with
    | zero => simp at hy
    | succ k' =>
      cases n with
      | zero =>
        by_cases hp : r % 2 = 0 <;> simp [blockPts, dirCols, hp] at hx
      | succ m =>
        rw [List.range'_succ, List.flatMap_cons, List.head?_append, block_head? grid m (r + 1)]
          at hy
        simp only [Option.or_some] at hy
        exact serp_junction grid (m + 1) r x hx y (by rw [block_head? grid m (r + 1)]; exact hy)

/-- Claim C7: for every grid and week count, the Path Planner's point
sequence covers row 0's block, then row 1's, ... then row 6's (the
per-point row values are exactly `n` copies of 0, then of 1, ..., then
of 6), and consecutive points form a continuous serpentine: within a
row the column changes by exactly one — ascending on even rows,
descending on odd rows — and at a row turn the row increases by one at
an unchanged column, so there are no jumps between non-adjacent cells. -/
theorem c7_serpentine_traversal (grid : List (List (Option Contrib))) (n : Nat) :
    ((pathPointsOf (cellsRowMajor grid n)).map (fun p => p.cell.row))
      = (List.range DAYS_IN_WEEK).flatMap (fun row => List.replicate n row) ∧
    List.Chain' serpStep (pathPointsOf (cellsRowMajor grid n)) := by
  rw [pathPointsOf_eq]
  constructor
  · rw [List.map_flatMap]
    refine List.flatMap_congr ?_
    intro row _
    rw [List.map_map]
    have hconst : ((fun p : PathPoint => p.cell.row) ∘ fun col => toPoint (mkCellAt grid row col))
        = fun _ => row := by
      funext c
      simp [toPoint, mkCellAt]
    rw [hconst, List.map_const']
    unfold dirCols
    by_cases hp : row % 2 = 0 <;> simp [hp]
  · have h2 := chain_blocks_range' grid n 7 0
    rw [← List.range_eq_range'] at h2
    exact h2

-- ### Claim C1: what the path visits

theorem dirCols_length (row n : Nat) : (dirCols row n).length = n := by
  unfold dirCols
  by_cases hp : row % 2 = 0 <;> simp [hp]

/-- The path has one point per grid cell: `7 * numWeeks` points. -/
theorem path_length (grid : List (List (Option Contrib))) (n : Nat) :
    (pathPointsOf (cellsRowMajor grid n)).length = 7 * n := by
  rw [pathPointsOf_eq]
  have h7 : List.range DAYS_IN_WEEK = [0, 1, 2, 3, 4, 5, 6] := rfl
  rw [h7]
  simp [List.flatMap_cons, List.flatMap_nil, dirCols_length]
  omega

theorem range_count (n c : Nat) : (List.range n).count c = if c < n then 1 else 0 := by
  by_cases h : c < n
  · rw [if_pos h]
    exact List.count_eq_one_of_mem (List.nodup_range n) (List.mem_range.mpr h)
  · rw [if_neg h]
    exact List.count_eq_zero_of_not_mem (by simpa using h)

theorem dirCols_count (row n c : Nat) : (dirCols row n).count c = if c < n then 1 else 0 := by
  unfold dirCols
  by_cases hp : row % 2 = 0
  · rw [if_pos hp, range_count]
  · rw [if_neg hp, List.count_reverse, range_count]

theorem count_pair_map (l : List Nat) (row' c : Nat) :
    ((l.map (fun col => (row', col))).count (row', c)) = l.count c := by
  induction l with
  | nil => rfl
  | cons a t ih =>
    rw [List.map_cons, List.count_cons, List.count_cons, ih]
    by_cases h : a = c <;> simp [h]

theorem block_pairs_count (n row' r c : Nat) :
    (((dirCols row' n).map (fun col => (row', col))).count (r, c))
      = if row' = r ∧ c < n then 1 else 0 := by
  by_cases hrr : row' = r
  · subst hrr
    rw [count_pair_map, dirCols_count]
    by_cases hc : c < n <;> simp [hc]
  · rw [List.count_eq_zero_of_not_mem, if_neg (by tauto)]
    intro hm
    rcases List.mem_map.mp hm with ⟨col, _, hEq⟩
    exact hrr (congrArg Prod.fst hEq)

/-- Each in-bounds (row, col) position appears exactly once along the
path; out-of-bounds positions never appear. -/
theorem path_pairs_count (grid : List (List (Option Contrib))) (n r c : Nat) :
    (((pathPointsOf (cellsRowMajor grid n)).map (fun p => (p.cell.row, p.cell.col))).count (r, c))
      = if r < 7 ∧ c < n then 1 else 0 := by
  rw [pathPointsOf_eq, List.map_flatMap]
  have hbody : (fun row' => ((dirCols row' n).map
        (fun col => toPoint (mkCellAt grid row' col))).map (fun p => (p.cell.row, p.cell.col)))
      = fun row' => (dirCols row' n).map (fun col => (row', col)) := by
    funext row'
    rw [List.map_map]
    refine List.map_congr_left ?_
    intro col _
    simp [toPoint, mkCellAt]
  rw [hbody]
  have h7 : List.range DAYS_IN_WEEK = [0, 1, 2, 3, 4, 5, 6] := rfl
  rw [h7]
  simp only [List.flatMap_cons, List.flatMap_nil, List.count_append, List.append_nil,
    block_pairs_count, List.count_nil]
  split_ifs <;> omega

theorem gridEntry_some_bounds (wd : List (List (Option Contrib))) (r c : Nat) :
    gridEntry (gridOf wd) r c ≠ none → r < 7 ∧ c < wd.length := by
  intro h
  rw [gridEntry_gridOf] at h
  by_cases hb : r < 7 ∧ c < wd.length
  · exact hb
  · rw [if_neg hb] at h
    exact absurd rfl h

/-- Counterexample to claim C1: one record yields a grid with a single
populated cell, yet the Path Planner emits 7 points (one per grid cell
of the single week column), so its length is not the populated-cell
count and it visits unpopulated positions. -/
theorem c1_length_counterexample :
    (pathPointsOf (cellsRowMajor
        (gridOf (weeksDataOf [{ date := 0, count := 1, level := 1 }]))
        (weeksDataOf [{ date := 0, count := 1, level := 1 }]).length)).length = 7 ∧
    populatedCount (gridOf (weeksDataOf [{ date := 0, count := 1, level := 1 }])) = 1 ∧
    (7 : Nat) ≠ 1 := by
  refine ⟨by decide, by decide, by decide⟩

/-- Claim C1 as amended: for every non-empty input, the Path Planner
emits one point per grid cell — `7 * numWeeks` points in total — and
visits every in-bounds grid position exactly once (in particular every
populated position exactly once, since populated positions are in
bounds) and no out-of-bounds position; its length is `7 * numWeeks`,
not the number of populated cells. -/
theorem c1_visits_every_cell_once (cs : List Contrib) (r c : Nat) (_hne : cs ≠ []) :
    (pathPointsOf (cellsRowMajor (gridOf (weeksDataOf cs)) (weeksDataOf cs).length)).length
      = 7 * (weeksDataOf cs).length ∧
    (((pathPointsOf (cellsRowMajor (gridOf (weeksDataOf cs)) (weeksDataOf cs).length)).map
        (fun p => (p.cell.row, p.cell.col))).count (r, c)
      = if r < 7 ∧ c < (weeksDataOf cs).length then 1 else 0) ∧
    (gridEntry (gridOf (weeksDataOf cs)) r c ≠ none →
      r < 7 ∧ c < (weeksDataOf cs).length) :=
  ⟨path_length _ _, path_pairs_count _ _ _ _, gridEntry_some_bounds _ _ _⟩

/-- Witness for the amended C1 at a one-record input and the populated
position (1, 0). -/
theorem c1_visits_every_cell_once_witness :
    (pathPointsOf (cellsRowMajor
        (gridOf (weeksDataOf [{ date := 0, count := 1, level := 1 }]))
        (weeksDataOf [{ date := 0, count := 1, level := 1 }]).length)).length
      = 7 * (weeksDataOf [{ date := 0, count := 1, level := 1 }]).length ∧
    (((pathPointsOf (cellsRowMajor
          (gridOf (weeksDataOf [{ date := 0, count := 1, level := 1 }]))
          (weeksDataOf [{ date := 0, count := 1, level := 1 }]).length)).map
        (fun p => (p.cell.row, p.cell.col))).count (1, 0)
      = if 1 < 7 ∧ 0 < (weeksDataOf [{ date := 0, count := 1, level := 1 }]).length
          then 1 else 0) ∧
    (gridEntry (gridOf (weeksDataOf [{ date := 0, count := 1, level := 1 }])) 1 0 ≠ none →
      1 < 7 ∧ 0 < (weeksDataOf [{ date := 0, count := 1, level := 1 }]).length) :=
  c1_visits_every_cell_once [{ date := 0, count := 1, level := 1 }] 1 0 (by decide)

-- ### SVG emitter (generate_svg, lines 296-554; generate_empty_svg, lines 557-566)

/-- `level = cell_data['level'] if cell_data else 0` (line 434). -/
def levelOf (p : PathPoint) : Nat :=
  match p.cell.data with
  | some c => c.level
  | none => 0

/-- The markup the cell loop emits (lines 432-459): one rounded
rectangle per path point and, when the level is positive, one animated
dot circle whose two child animations both begin at
`idx * ANIMATION_DURATION_PER_CELL` seconds, with radius
`2 + level * 0.5`. -/
inductive SvgElem where
  | rect (x y : Nat) (fill : String)
  | dot (cx cy : Nat) (r : ℚ) (delay : ℚ)
deriving DecidableEq, Repr

/-- The loop `for idx, (px, py, cell) in enumerate(path_points)` with
the running index made explicit. -/
def cellElemsFrom (idx : Nat) : List PathPoint → List SvgElem
  | [] => []
  | p :: rest =>
    SvgElem.rect p.cell.x p.cell.y (levelColor (levelOf p)) ::
      ((if 0 < levelOf p then
          [SvgElem.dot p.px p.py (2 + (levelOf p : ℚ) * (1/2))
            ((idx : ℚ) * ANIMATION_DURATION_PER_CELL)]
        else []) ++ cellElemsFrom (idx + 1) rest)

def cellElems (pts : List PathPoint) : List SvgElem := cellElemsFrom 0 pts

/-- Observer: is this element a dot centred at (x, y)? -/
def isDotAt (x y : Nat) : SvgElem → Bool
  | .dot cx cy _ _ => cx == x && cy == y
  | _ => false

/-- Observer: the dot elements emitted at pixel position (x, y). -/
def dotsAt (pts : List PathPoint) (x y : Nat) : List SvgElem :=
  (cellElems pts).filter (isDotAt x y)

/-- `generate_empty_svg`: the fixed placeholder document (a string
constant with no dynamic fields). -/
def generate_empty_svg : String :=
  "<svg xmlns=\"http://www.w3.org/2000/svg\" viewBox=\"0 0 800 150\">\n    <rect width=\"800\" height=\"150\" fill=\"#0d1117\"/>\n    <text x=\"400\" y=\"75\" fill=\"#8b949e\" text-anchor=\"middle\" \n          font-family=\"-apple-system, BlinkMacSystemFont, \x27Segoe UI\x27, Helvetica, Arial, sans-serif\" \n          font-size=\"14\">\n        No contributions yet - Start coding!\n    </text>\n</svg>"

/-- The dynamic content of the full calendar layout document. -/
structure SvgLayout where
  width : Nat
  height : Nat
  totalContributions : Nat
  activeDays : Nat
  totalDuration : ℚ
  cells : List SvgElem
  pathPositions : List (Nat × Nat)
deriving DecidableEq, Repr

/-- Structured form of the document `generate_svg` returns: either the
fixed placeholder string or the full calendar layout. -/
inductive SvgOut where
  | placeholder (s : String)
  | layout (l : SvgLayout)
deriving DecidableEq, Repr

/-- `generate_svg`.  The empty-contributions guard (lines 301-302) is
the only branch that changes the overall document shape; in the main
branch the guard guarantees `build_calendar_grid` takes its non-empty
path, so the grid and week list are used directly.  The layout records
the document's dynamic content: dimensions (lines 309-310), the stats
of lines 346-347, the loop duration of lines 350-353, the per-cell
markup of lines 432-459 and the path positions driving the character
animation (lines 478-487). -/
def generate_svg (d : ContributionsData) : SvgOut :=
  if d.contributions.isEmpty then .placeholder generate_empty_svg
  else
    let weeksData := weeksDataOf d.contributions
    let grid := gridOf weeksData
    let num_weeks := weeksData.length
    let pts := pathPointsOf (cellsRowMajor grid num_weeks)
    .layout
      { width := MARGIN_LEFT + num_weeks * (CELL_SIZE + CELL_GAP) + MARGIN_RIGHT
        height := MARGIN_TOP + DAYS_IN_WEEK * (CELL_SIZE + CELL_GAP) + MARGIN_BOTTOM
        totalContributions :=
          ((d.contributions.filter (fun c => 0 < c.count)).map (fun c => c.count)).sum
        activeDays := (d.contributions.filter (fun c => 0 < c.count)).length
        totalDuration := ((pts.length : ℚ) * ANIMATION_DURATION_PER_CELL) * 2
        cells := cellElems pts
        pathPositions := pts.map (fun p => (p.px, p.py)) }

/-- Claim C6: `generate_svg` returns the fixed placeholder document if
and only if the contribution collection is empty, and on empty input the
output does not depend on any other field of the input (the placeholder
has no dynamic fields). -/
theorem c6_placeholder_iff_empty (d d' : ContributionsData) :
    (generate_svg d = .placeholder generate_empty_svg ↔ d.contributions = []) ∧
    (d.contributions = [] → d'.contributions = [] → generate_svg d = generate_svg d') := by
  constructor
  · constructor
    · intro h
      by_cases he : d.contributions.isEmpty
      · exact List.isEmpty_iff.mp he
      · have he' : d.contributions.isEmpty = false := by simpa using he
        simp only [generate_svg, he', Bool.false_eq_true, if_false] at h
        cases h
    · intro h
      have he : d.contributions.isEmpty := by simp [h]
      simp [generate_svg, he]
  · intro h h'
    have he : d.contributions.isEmpty := by simp [h]
    have he' : d'.contributions.isEmpty := by simp [h']
    simp [generate_svg, he, he']

/-- Witness for C6 at two concrete empty inputs (with different `years`
fields) and implicitly, via the iff, at non-empty inputs. -/
theorem c6_placeholder_iff_empty_witness :
    (generate_svg { contributions := [], years := [] }
        = .placeholder generate_empty_svg ↔
      ({ contributions := [], years := [] } : ContributionsData).contributions = []) ∧
    (({ contributions := [], years := [] } : ContributionsData).contributions = [] →
      ({ contributions := [], years := [2024] } : ContributionsData).contributions = [] →
      generate_svg { contributions := [], years := [] }
        = generate_svg { contributions := [], years := [2024] }) :=
  c6_placeholder_iff_empty { contributions := [], years := [] }
    { contributions := [], years := [2024] }

-- ### Claim C9: one animated dot per positive-level cell

theorem cellElemsFrom_append (s : Nat) (l1 l2 : List PathPoint) :
    cellElemsFrom s (l1 ++ l2) = cellElemsFrom s l1 ++ cellElemsFrom (s + l1.length) l2 := by
  induction l1 generalizing s with
  | nil => simp [cellElemsFrom]
  | cons p t ih =>
    rw [List.cons_append, cellElemsFrom, cellElemsFrom, ih (s + 1)]
    have harith : s + 1 + t.length = s + (p :: t).length := by
      simp
      omega
    rw [harith]
    simp [List.append_assoc]

theorem filter_dots_nil (x y : Nat) :
    ∀ (s : Nat) (l : List PathPoint), (∀ q ∈ l, ¬(q.px = x ∧ q.py = y)) →
    (cellElemsFrom s l).filter (isDotAt x y) = []
  | _, [], _ => rfl
  | s, p :: t, h => by
    have ht := filter_dots_nil x y (s + 1) t (fun q hq => h q (List.mem_cons_of_mem _ hq))
    have hp := h p (List.mem_cons_self _ _)
    have hb : (p.px == x && p.py == y) = false := by
      by_cases hx : p.px = x
      · by_cases hy : p.py = y
        · exact absurd ⟨hx, hy⟩ hp
        · simp [hx, hy]
      · simp [hx]
    rw [cellElemsFrom, List.filter_cons]
    by_cases hl : 0 < levelOf p <;>
      simp [hl, List.filter_append, List.filter_cons, isDotAt, hb, ht]

theorem dots_split (x y : Nat) (l1 : List PathPoint) (p : PathPoint) (l2 : List PathPoint)
    (hpx : p.px = x) (hpy : p.py = y)
    (h1 : ∀ q ∈ l1, ¬(q.px = x ∧ q.py = y)) (h2 : ∀ q ∈ l2, ¬(q.px = x ∧ q.py = y)) :
    (cellElemsFrom 0 (l1 ++ p :: l2)).filter (isDotAt x y)
      = if 0 < levelOf p then
          [SvgElem.dot p.px p.py (2 + (levelOf p : ℚ) * (1/2))
            ((l1.length : ℚ) * ANIMATION_DURATION_PER_CELL)]
        else [] := by
  rw [cellElemsFrom_append, List.filter_append, filter_dots_nil x y 0 l1 h1, List.nil_append]
  rw [cellElemsFrom, List.filter_cons]
  have hb : (p.px == x && p.py == y) = true := by simp [hpx, hpy]
  have ht : List.filter (isDotAt x y) (cellElemsFrom (l1.length + 1) l2) = [] := by
    simpa using filter_dots_nil x y (0 + l1.length + 1) l2 h2
  by_cases hl : 0 < levelOf p <;>
    simp [hl, List.filter_append, List.filter_cons, isDotAt, hb, ht]

/-- Distinct path points sit at distinct pixel positions. -/
theorem path_pos_nodup (grid : List (List (Option Contrib))) (n : Nat) :
    ((pathPointsOf (cellsRowMajor grid n)).map (fun p => (p.px, p.py))).Nodup := by
  rw [pathPointsOf_eq, List.map_flatMap, List.nodup_flatMap]
  constructor
  · intro row _
    rw [List.map_map]
    refine List.Nodup.map ?_ ?_
    · intro a b hab
      have := congrArg Prod.fst hab
      simp only [Function.comp, toPoint, mkCellAt] at this
      unfold MARGIN_LEFT CELL_SIZE CELL_GAP at this
      omega
    · unfold dirCols
      by_cases hp : row % 2 = 0
      · rw [if_pos hp]
        exact List.nodup_range n
      · rw [if_neg hp]
        exact List.nodup_reverse.mpr (List.nodup_range n)
  · refine (List.pairwise_lt_range 7).imp ?_
    intro r1 r2 hlt a ha1 ha2
    simp only [List.map_map] at ha1 ha2
    rcases List.mem_map.mp ha1 with ⟨c1, _, heq1⟩
    rcases List.mem_map.mp ha2 with ⟨c2, _, heq2⟩
    have := congrArg Prod.snd (heq1.trans heq2.symm)
    simp only [Function.comp, toPoint, mkCellAt] at this
    unfold MARGIN_TOP CELL_SIZE CELL_GAP at this
    omega

/-- Claim C9: at the pixel position of path point `i`, the cell loop
emits exactly one dot element when that cell's level is positive — with
radius `2 + level * 0.5` and animation begin delay
`i * ANIMATION_DURATION_PER_CELL` (0.25 s per sequence index) — and no
dot element when the level is zero. -/
theorem c9_dot_per_positive_cell (grid : List (List (Option Contrib))) (n i : Nat)
    (h : i < (pathPointsOf (cellsRowMajor grid n)).length) :
    dotsAt (pathPointsOf (cellsRowMajor grid n))
        ((pathPointsOf (cellsRowMajor grid n)).get ⟨i, h⟩).px
        ((pathPointsOf (cellsRowMajor grid n)).get ⟨i, h⟩).py
      = if 0 < levelOf ((pathPointsOf (cellsRowMajor grid n)).get ⟨i, h⟩) then
          [SvgElem.dot ((pathPointsOf (cellsRowMajor grid n)).get ⟨i, h⟩).px
            ((pathPointsOf (cellsRowMajor grid n)).get ⟨i, h⟩).py
            (2 + (levelOf ((pathPointsOf (cellsRowMajor grid n)).get ⟨i, h⟩) : ℚ) * (1/2))
            ((i : ℚ) * ANIMATION_DURATION_PER_CELL)]
        else [] := by
  set pts := pathPointsOf (cellsRowMajor grid n) with hpts
  set p := pts.get ⟨i, h⟩ with hp
  have hdecomp : pts = pts.take i ++ p :: pts.drop (i + 1) := by
    conv_lhs => rw [← List.take_append_drop i pts]
    rw [List.drop_eq_getElem_cons h, hp, List.get_eq_getElem]
  have hnodup := path_pos_nodup grid n
  rw [← hpts, hdecomp, List.map_append, List.map_cons, List.nodup_middle,
    List.nodup_cons] at hnodup
  have hnotmem := hnodup.1
  have h1 : ∀ q ∈ pts.take i, ¬(q.px = p.px ∧ q.py = p.py) := by
    intro q hq hqeq
    apply hnotmem
    rw [List.mem_append]
    left
    exact List.mem_map.mpr ⟨q, hq, by rw [hqeq.1, hqeq.2]⟩
  have h2 : ∀ q ∈ pts.drop (i + 1), ¬(q.px = p.px ∧ q.py = p.py) := by
    intro q hq hqeq
    apply hnotmem
    rw [List.mem_append]
    right
    exact List.mem_map.mpr ⟨q, hq, by rw [hqeq.1, hqeq.2]⟩
  have hsplit := dots_split p.px p.py (pts.take i) p (pts.drop (i + 1)) rfl rfl h1 h2
  have hlen : (pts.take i).length = i := by
    rw [List.length_take]
    omega
  rw [hlen] at hsplit
  unfold dotsAt cellElems
  rw [← hpts, hdecomp]
  exact hsplit

/-- Witness for C9 on a one-record grid: point 1 of the path sits on the
populated level-3 cell at row 1 and carries one dot delayed by 0.25 s. -/
theorem c9_dot_per_positive_cell_witness :
    dotsAt (pathPointsOf (cellsRowMajor
        (gridOf (weeksDataOf [{ date := 0, count := 5, level := 3 }])) 1))
        ((pathPointsOf (cellsRowMajor
          (gridOf (weeksDataOf [{ date := 0, count := 5, level := 3 }])) 1)).get
            ⟨1, by decide⟩).px
        ((pathPointsOf (cellsRowMajor
          (gridOf (weeksDataOf [{ date := 0, count := 5, level := 3 }])) 1)).get
            ⟨1, by decide⟩).py
      = if 0 < levelOf ((pathPointsOf (cellsRowMajor
            (gridOf (weeksDataOf [{ date := 0, count := 5, level := 3 }])) 1)).get
              ⟨1, by decide⟩) then
          [SvgElem.dot
            ((pathPointsOf (cellsRowMajor
              (gridOf (weeksDataOf [{ date := 0, count := 5, level := 3 }])) 1)).get
                ⟨1, by decide⟩).px
            ((pathPointsOf (cellsRowMajor
              (gridOf (weeksDataOf [{ date := 0, count := 5, level := 3 }])) 1)).get
                ⟨1, by decide⟩).py
            (2 + (levelOf ((pathPointsOf (cellsRowMajor
              (gridOf (weeksDataOf [{ date := 0, count := 5, level := 3 }])) 1)).get
                ⟨1, by decide⟩) : ℚ) * (1/2))
            ((1 : ℚ) * ANIMATION_DURATION_PER_CELL)]
        else [] :=
  c9_dot_per_positive_cell
    (gridOf (weeksDataOf [{ date := 0, count := 5, level := 3 }])) 1 1 (by decide)

-- ### Contribution source (fetch_contributions_graphql / fetch_contributions)

/-- One `contributionDays` entry of the GraphQL payload. -/
structure GDay where
  date : Nat
  contributionCount : Nat
  contributionLevel : String
deriving DecidableEq, Repr

/-- Parsed body of the user query response: whether the payload has an
`errors` key, and — when `data.user` is present — the contribution
years. -/
structure UserBody where
  errors : Bool
  userYears : Option (List Int)
deriving DecidableEq, Repr

/-- Parsed body of a per-year query response: the weeks of contribution
days when `data.user` is present. -/
structure YearBody where
  user : Option (List (List GDay))
deriving DecidableEq, Repr

/-- Outcome of one `requests.post`: either the call raises a transport
exception, or an HTTP response arrives; `body = .error e` models
`response.json()` raising on a malformed body (the script calls
`.json()` only on a 200 status). -/
inductive HttpOutcome (β : Type) where
  | exn (msg : String)
  | resp (status : Nat) (body : Except String β)

/-- The HTTP transport seen by one run: the outcome of the user-query
POST and of each per-year POST. -/
structure Transport where
  userPost : HttpOutcome UserBody
  yearPost : Int → HttpOutcome YearBody

/-- The per-year fetch loop (lines 104-156): a raising POST or a raising
`.json()` propagates as an exception; a non-200 year response is
silently skipped; a present `data.user` appends its flattened days with
the level converted by `contribution_level_to_int`. -/
def yearLoop (t : Transport) : List Int → List Contrib → Except String (List Contrib)
  | [], acc => .ok acc
  | y :: rest, acc =>
    match t.yearPost y with
    | .exn e => .error e
    | .resp status body =>
      if status = 200 then
        match body with
        | .error e => .error e
        | .ok yb =>
          match yb.user with
          | some weeks =>
            yearLoop t rest (acc ++ weeks.flatMap (fun week => week.map (fun day =>
              ({ date := day.date, count := day.contributionCount,
                 level := contribution_level_to_int day.contributionLevel } : Contrib))))
          | none => yearLoop t rest acc
      else
        yearLoop t rest acc

/-- `fetch_contributions_graphql` (lines 54-160): `.ok none` models the
function returning `None` (no token, non-200 user response, GraphQL
errors, missing user data, or no contributions); `.error` models an
uncaught exception escaping the function. -/
def fetch_contributions_graphql (token : Option String) (t : Transport) :
    Except String (Option ContributionsData) :=
  match token with
  | none => .ok none
  | some _ =>
    match t.userPost with
    | .exn e => .error e
    | .resp status body =>
      if status = 200 then
        match body with
        | .error e => .error e
        | .ok ub =>
          if ub.errors then .ok none
          else
            match ub.userYears with
            | none => .ok none
            | some years =>
              match yearLoop t (List.insertionSort (fun a b => a ≤ b) years) [] with
              | .error e => .error e
              | .ok all =>
                if all.isEmpty then .ok none
                else .ok (some { contributions := all, years := years })
      else .ok none

/-- `fetch_contributions` (lines 163-175).  `generate_mock_data` is
impure (randomness and the wall clock), so its result is an explicit
argument `mock`: the fallback branch returns it. -/
def fetch_contributions (token : Option String) (t : Transport)
    (mock : ContributionsData) : Except String ContributionsData :=
  match fetch_contributions_graphql token t with
  | .error e => .error e
  | .ok (some result) =>
    if result.contributions.isEmpty then .ok mock else .ok result
  | .ok none => .ok mock

/-- Counterexample to claim C2: when the user-query POST raises a
transport exception, `fetch_contributions` propagates the exception to
its caller instead of returning the mock fallback (there is no
try/except around the POSTs). -/
theorem c2_exception_counterexample :
    fetch_contributions (some "token")
        { userPost := .exn "ConnectionError", yearPost := fun _ => .exn "ConnectionError" }
        { contributions := [{ date := 0, count := 1, level := 1 }], years := [2024] }
      = .error "ConnectionError" ∧
    fetch_contributions (some "token")
        { userPost := .exn "ConnectionError", yearPost := fun _ => .exn "ConnectionError" }
        { contributions := [{ date := 0, count := 1, level := 1 }], years := [2024] }
      ≠ .ok { contributions := [{ date := 0, count := 1, level := 1 }], years := [2024] } := by
  refine ⟨rfl, ?_⟩
  intro h
  have h2 : (Except.error "ConnectionError" : Except String ContributionsData)
      = .ok { contributions := [{ date := 0, count := 1, level := 1 }], years := [2024] } := h
  exact Except.noConfusion h2

/-- A POST outcome that neither raises nor (on a 200 status) fails to
parse. -/
def OutcomeSafe {β : Type} : HttpOutcome β → Prop
  | .exn _ => False
  | .resp status body => status = 200 → ∀ e, body ≠ .error e

theorem yearLoop_ok (t : Transport) (hy : ∀ y, OutcomeSafe (t.yearPost y)) :
    ∀ (years : List Int) (acc : List Contrib), ∃ l, yearLoop t years acc = .ok l
  | [], acc => ⟨acc, rfl⟩
  | y :: rest, acc => by
    have hsafe := hy y
    rw [yearLoop]
    rcases hpost : t.yearPost y with e | ⟨status, body⟩
    · rw [hpost] at hsafe
      exact absurd hsafe (by simp [OutcomeSafe])
    · rw [hpost] at hsafe
      dsimp only
      by_cases hs : status = 200
      · rw [if_pos hs]
        rcases hbody : body with e | yb
        · rw [hbody] at hsafe
          exact absurd rfl (hsafe hs e)
        · dsimp only
          rcases hyb : yb.user with _ | weeks
          · exact yearLoop_ok t hy rest acc
          · exact yearLoop_ok t hy rest _
      · rw [if_neg hs]
        exact yearLoop_ok t hy rest acc

theorem fetch_contributions_graphql_ok (token : Option String) (t : Transport)
    (hu : OutcomeSafe t.userPost) (hy : ∀ y, OutcomeSafe (t.yearPost y)) :
    ∃ o, fetch_contributions_graphql token t = .ok o := by
  rcases token with _ | tok
  · exact ⟨none, rfl⟩
  · rw [fetch_contributions_graphql]
    rcases hpost : t.userPost with e | ⟨status, body⟩
    · rw [hpost] at hu
      exact absurd hu (by simp [OutcomeSafe])
    · rw [hpost] at hu
      dsimp only
      by_cases hs : status = 200
      · rw [if_pos hs]
        rcases hbody : body with e | ub
        · rw [hbody] at hu
          exact absurd rfl (hu hs e)
        · dsimp only
          by_cases herr : ub.errors
          · simp only [herr, if_true]
            exact ⟨none, rfl⟩
          · simp only [herr, Bool.false_eq_true, if_false]
            rcases hyrs : ub.userYears with _ | years
            · exact ⟨none, rfl⟩
            · dsimp only
              rcases yearLoop_ok t hy (List.insertionSort (fun a b => a ≤ b) years) []
                with ⟨all, hall⟩
              rw [hall]
              dsimp only
              by_cases hemp : all.isEmpty
              · rw [if_pos hemp]
                exact ⟨none, rfl⟩
              · rw [if_neg hemp]
                exact ⟨some { contributions := all, years := years }, rfl⟩
      · rw [if_neg hs]
        exact ⟨none, rfl⟩

/-- Claim C2 as amended: as long as every POST returns an HTTP response
(of any status) whose body parses when read, `fetch_contributions`
never propagates an exception — it returns fetched data or the mock
fallback, and every degraded GraphQL outcome (`None`) yields exactly the
mock fallback.  A POST that raises a transport exception, however,
propagates to the caller (see the counterexample). -/
theorem c2_fallback_when_no_raise (token : Option String) (t : Transport)
    (mock : ContributionsData)
    (hu : OutcomeSafe t.userPost) (hy : ∀ y, OutcomeSafe (t.yearPost y)) :
    (∃ r, fetch_contributions token t mock = .ok r) ∧
    (fetch_contributions_graphql token t = .ok none →
      fetch_contributions token t mock = .ok mock) := by
  rcases fetch_contributions_graphql_ok token t hu hy with ⟨o, ho⟩
  constructor
  · rw [fetch_contributions, ho]
    rcases o with _ | result
    · exact ⟨mock, rfl⟩
    · by_cases hemp : result.contributions.isEmpty
      · simp only [hemp, if_true]
        exact ⟨mock, rfl⟩
      · simp only [hemp, Bool.false_eq_true, if_false]
        exact ⟨result, rfl⟩
  · intro hnone
    rw [fetch_contributions, hnone]

/-- Witness for the amended C2: a run with no token and a trivially safe
transport falls back to the mock data without an exception. -/
theorem c2_fallback_when_no_raise_witness :
    (∃ r, fetch_contributions none
        { userPost := .resp 200 (.ok { errors := false, userYears := none }),
          yearPost := fun _ => .resp 200 (.ok { user := none }) }
        { contributions := [{ date := 0, count := 1, level := 1 }], years := [2024] }
      = .ok r) ∧
    (fetch_contributions_graphql none
        { userPost := .resp 200 (.ok { errors := false, userYears := none }),
          yearPost := fun _ => .resp 200 (.ok { user := none }) } = .ok none →
      fetch_contributions none
        { userPost := .resp 200 (.ok { errors := false, userYears := none }),
          yearPost := fun _ => .resp 200 (.ok { user := none }) }
        { contributions := [{ date := 0, count := 1, level := 1 }], years := [2024] }
      = .ok { contributions := [{ date := 0, count := 1, level := 1 }], years := [2024] }) :=
  c2_fallback_when_no_raise none
    { userPost := .resp 200 (.ok { errors := false, userYears := none }),
      yearPost := fun _ => .resp 200 (.ok { user := none }) }
    { contributions := [{ date := 0, count := 1, level := 1 }], years := [2024] }
    (by intro _ e h; cases h) (by intro y _ e h; cases h)
